import Mathlib

/-!
Shallow embedding of the generation-orchestration core of `src/main.py`
(Fusion Brain Telegram bot): credential loading, client-pool initialization,
pipeline resolution, prompt submission, status polling and result
classification, together with theorems checking the specification's claims
about them.
-/

namespace FusionBot

/-- Shape of the `files` field inside a DONE status payload as inspected by
`check_generation`: the field may be absent (modelled by `Option.none` around
this type), present but not a JSON list, or a JSON list of base64 strings. -/
inductive FilesField where
  | notAList
  | jsonList (fs : List String)
deriving DecidableEq

/-- The `result` object of a DONE status response: `censored` is the Python
truthiness of `result.get('censored', False)` and `files` the shape of
`result.get('files')` (`none` when the key is absent). -/
structure DoneResult where
  censored : Bool
  files : Option FilesField
deriving DecidableEq

/-- The parsed `status` field of one successful status query, as branched on
by `check_generation`: `DONE` (with its result payload), `FAIL`, the pending
statuses `INITIAL` and `PROCESSING`, or any other (unknown) string. -/
inductive RemoteStatus where
  | done (r : DoneResult)
  | fail
  | initial
  | processing
  | unknown
deriving DecidableEq

/-- What one polling attempt observes: a parsed status response, a
`requests.exceptions.Timeout`, another `requests.exceptions.RequestException`,
or an unexpected exception of any other class. -/
inductive PollEvent where
  | status (s : RemoteStatus)
  | timeoutErr
  | requestErr
  | otherExc
deriving DecidableEq

/-- Return value of `check_generation`: a list of base64 strings on success,
or one of the string tags `"censored"`, `"error"`, `"timeout"`. -/
inductive PollOutcome where
  | images (fs : List String)
  | censored
  | error
  | timeout
deriving DecidableEq

/-- The DONE branch of `check_generation` (main.py lines 233-244): if the
result is flagged censored return `"censored"`; else if `files` is a (Python
truthy, hence nonempty) list return it; else return `"error"`. -/
def handleDone (r : DoneResult) : PollOutcome :=
  if r.censored then .censored
  else
    match r.files with
    | some (.jsonList (f :: fs)) => .images (f :: fs)
    | _ => .error

/-- The body of one attempt of the `check_generation` loop: `some out` when
the attempt is terminal with outcome `out`, `none` when the loop continues
(pending status, unknown status, `Timeout` or `RequestException`). An
unexpected exception class is terminal with `"error"` (main.py line 267). -/
def stepResult : PollEvent → Option PollOutcome
  | .status (.done r) => some (handleDone r)
  | .status .fail => some .error
  | .status .initial => none
  | .status .processing => none
  | .status .unknown => none
  | .timeoutErr => none
  | .requestErr => none
  | .otherExc => some .error

/-- Observable summary of one `check_generation` run: its return value, the
number of loop iterations executed (each issues one status query attempt) and
the number of `asyncio.sleep(delay)` calls made. -/
structure PollRun where
  outcome : PollOutcome
  attemptsUsed : Nat
  sleeps : Nat
deriving DecidableEq

/-- The `while current_attempt < attempts` loop of `check_generation`
(main.py lines 219-275), with the remaining iteration budget
`rem = attempts - current_attempt` made explicit as structural fuel.
`events i` is what the attempt numbered `i + 1` observes. The loop sleeps
after a non-terminal attempt only while budget remains
(`if current_attempt < attempts`, i.e. `rem` is still positive), and returns
`"timeout"` when the budget is exhausted. -/
def pollGo (events : Nat → PollEvent) : Nat → Nat → Nat → PollRun
  | 0, current, sleeps => ⟨.timeout, current, sleeps⟩
  | rem + 1, current, sleeps =>
    match stepResult (events current) with
    | some out => ⟨out, current + 1, sleeps⟩
    | none => pollGo events rem (current + 1) (if rem = 0 then sleeps else sleeps + 1)

/-- `FusionBrainAPI.check_generation`: runs the polling loop from attempt 0
with a budget of `attempts` iterations. -/
def check_generation (events : Nat → PollEvent) (attempts : Nat) : PollRun :=
  pollGo events attempts 0 0

/-- An event the polling loop treats as known-transient and non-terminal:
an HTTP timeout, a network/request error, or an unknown status string. -/
def transientEvent : PollEvent → Bool
  | .timeoutErr => true
  | .requestErr => true
  | .status .unknown => true
  | _ => false

/-- An event carrying a pending remote status (`INITIAL` or `PROCESSING`). -/
def pendingStatus : PollEvent → Bool
  | .status .initial => true
  | .status .processing => true
  | _ => false

/-- An event that is a successfully parsed status response whose status
string is one of the four documented values. -/
def isStatusEvent : PollEvent → Bool
  | .status .unknown => false
  | .status _ => true
  | _ => false

/-- One credential pair as loaded from the environment
(`FUSION_BRAIN_KEY_PAIRS` entries in main.py). -/
structure Credential where
  api_key : String
  secret_key : String
  id : Nat
deriving DecidableEq

/-- The `FusionBrainAPI.__init__` validity check (main.py lines 98-99): both
keys must be Python-truthy (nonempty), otherwise `ValueError` is raised and
the client is never constructed. -/
def Credential.valid (c : Credential) : Bool :=
  !(c.api_key == "") && !(c.secret_key == "")

/-- Result of one `initialize_pipeline_id` task as observed by
`initialize_fusion_clients` through `asyncio.gather`: returned `True`,
returned `False`, or raised an exception. -/
inductive ResolveResult where
  | ok
  | failed
  | exn
deriving DecidableEq

/-- `initialize_fusion_clients` (main.py lines 700-759): constructs a client
per credential, dropping credentials whose constructor raises (invalid keys),
resolves pipeline ids concurrently (modelled by the oracle `resolve`), and
keeps exactly the clients whose resolution returned `True`. -/
def initialize_fusion_clients (resolve : Credential → ResolveResult)
    (key_pairs : List Credential) : List Credential :=
  (key_pairs.filter fun c => c.valid).filter fun c => resolve c == ResolveResult.ok

/-- The startup guard in `main` (main.py lines 802-805): the process refuses
to start exactly when the client pool is empty. -/
def startupProceeds (clients : List Credential) : Bool :=
  !clients.isEmpty

/-- One entry of the remote pipeline listing, keeping the fields
`initialize_pipeline_id` and the spec mention: `status`, `type`, `version`
and `id`, each possibly absent. -/
structure PipelineEntry where
  status : Option String
  type : Option String
  version : Option Nat
  id : Option String
deriving DecidableEq

/-- The predicate `initialize_pipeline_id` filters with (main.py line 126):
`p.get("status") == "ACTIVE" and p.get("type") == "TEXT2IMAGE"`. -/
def isActiveT2I (p : PipelineEntry) : Bool :=
  p.status == some "ACTIVE" && p.type == some "TEXT2IMAGE"

/-- `FusionBrainAPI.initialize_pipeline_id` (main.py lines 113-134) restricted
to its selection logic: take the first listing entry that is ACTIVE and
TEXT2IMAGE; succeed (storing that entry's id) iff it has an `id` field. The
code performs no version comparison of any kind. -/
def initialize_pipeline_id (data : List PipelineEntry) : Option String :=
  match data.find? isActiveT2I with
  | some p => p.id
  | none => none

/-- Selection rule stated by the spec (for refinement comparison): pick the
active text-to-image entry whose version matches the expected generation
version, falling back to the first active text-to-image entry only when the
response carries no version field. -/
def specSelectPipeline (expectedVersion : Nat) (data : List PipelineEntry) :
    Option String :=
  if data.all fun p => p.version == none then
    match data.find? isActiveT2I with
    | some p => p.id
    | none => none
  else
    match data.find? fun p => isActiveT2I p && p.version == some expectedVersion with
    | some p => p.id
    | none => none

/-- The prompt actually sent by `run_generation_task` (main.py line 447):
`prompt[:1000]`, modelled on the character list of the prompt. -/
def run_generation_prompt (prompt : List Char) : List Char :=
  prompt.take 1000

/-- Whether `run_generation_task` logs the truncation warning
(main.py lines 448-449): exactly when `len(prompt) > 1000`. -/
def truncationWarned (prompt : List Char) : Bool :=
  decide (prompt.length > 1000)

/-- Observable summary of one `FusionBrainAPI.generate` call: how many times
`initialize_pipeline_id` was invoked from inside it, whether the generation
POST request was issued, and the returned UUID (`none` models returning
`None`). -/
structure GenerateTrace where
  resolutionAttempts : Nat
  requestIssued : Bool
  uuid : Option String
deriving DecidableEq

/-- The unresolved-pipeline branch of `generate`: after the single lazy
resolution attempt (whose stored id is `resolveResult`, `none` on failure),
either give up without a request or issue the request with the new id. -/
def generateAfterResolve (resolveResult : Option String)
    (submit : String → Option String) : GenerateTrace :=
  match resolveResult with
  | none => ⟨1, false, none⟩
  | some newPid => ⟨1, true, submit newPid⟩

/-- `FusionBrainAPI.generate` (main.py lines 142-209) at the granularity of
pipeline-id handling: `if not self.pipeline_id` (Python-falsy: `None` or the
empty string) retry resolution exactly once and fail without any request if
that fails; otherwise issue the generation request, whose outcome the oracle
`submit` gives per pipeline id. -/
def generate (pid : Option String) (resolveResult : Option String)
    (submit : String → Option String) : GenerateTrace :=
  match pid with
  | none => generateAfterResolve resolveResult submit
  | some p =>
    if p == "" then generateAfterResolve resolveResult submit
    else ⟨0, true, submit p⟩

/-- What `run_generation_task` tells the user after classifying a
`check_generation` result (main.py lines 462-515). -/
inductive UserReply where
  | genError
  | genTimeout
  | genCensored
  | photoSent (bytes : List Nat)
  | decodeError
  | unexpectedResult
deriving DecidableEq

/-- The result-classification step of `run_generation_task` (main.py lines
462-515). `base64.b64decode` is modelled by the oracle `decode`: `none` for a
`binascii.Error`, `some bytes` for a successful decode; an empty decode
raises `ValueError`. Both exceptions are caught and reported as a decode
error message, never propagated. -/
def classify_result (decode : String → Option (List Nat)) :
    PollOutcome → UserReply
  | .error => .genError
  | .timeout => .genTimeout
  | .censored => .genCensored
  | .images [] => .unexpectedResult
  | .images (b :: _) =>
    match decode b with
    | none => .decodeError
    | some [] => .decodeError
    | some (x :: xs) => .photoSent (x :: xs)

/-- Whether a reply delivers a generated image to the user. -/
def isImageReply : UserReply → Bool
  | .photoSent _ => true
  | _ => false

/-- `os.getenv` followed by the Python truthiness test used throughout the
key-loading block: a value counts only when present and nonempty. -/
def getTruthy (env : String → Option String) (name : String) : Option String :=
  match env name with
  | some s => if s == "" then none else some s
  | none => none

/-- The numbered pair at index `i`: present iff both
`FUSION_BRAIN_API_KEY_i` and `FUSION_BRAIN_SECRET_KEY_i` are set and truthy
(main.py lines 61-64). -/
def pairAt (env : String → Option String) (i : Nat) : Option Credential :=
  match getTruthy env ("FUSION_BRAIN_API_KEY_" ++ toString i),
        getTruthy env ("FUSION_BRAIN_SECRET_KEY_" ++ toString i) with
  | some a, some s => some ⟨a, s, i⟩
  | _, _ => none

/-- The `while True` scan of main.py lines 59-68 starting at index `i`, with
an explicit fuel bound standing for the unbounded loop (the scan stops at the
first index whose pair is incomplete, so any fuel at least as large as the
first gap gives the loop's exact result). -/
def scanNumbered (env : String → Option String) : Nat → Nat → List Credential
  | 0, _ => []
  | fuel + 1, i =>
    match pairAt env i with
    | some c => c :: scanNumbered env fuel (i + 1)
    | none => []

/-- The complete `FUSION_BRAIN_KEY_PAIRS` loading logic (main.py lines
58-85): the numbered scan from index 1; if it finds nothing, fall back first
to `API_KEY`/`SECRET_KEY` and then to
`FUSION_BRAIN_API_KEY`/`FUSION_BRAIN_SECRET_KEY`, in either case producing a
single credential with id 0. -/
def fusionBrainKeyPairs (env : String → Option String) (fuel : Nat) :
    List Credential :=
  let numbered := scanNumbered env fuel 1
  if numbered.isEmpty then
    match getTruthy env "API_KEY", getTruthy env "SECRET_KEY" with
    | some a, some s => [⟨a, s, 0⟩]
    | _, _ =>
      match getTruthy env "FUSION_BRAIN_API_KEY",
            getTruthy env "FUSION_BRAIN_SECRET_KEY" with
      | some a, some s => [⟨a, s, 0⟩]
      | _, _ => []
  else numbered

/-- The round-robin dispatch step of `run_generation_task` (main.py lines
438-441): select index `cursor % P` and store back `(cursor + 1) % P`. -/
def dispatch (P cursor : Nat) : Nat × Nat :=
  (cursor % P, (cursor + 1) % P)

/-- The selected indices of `n` consecutive uncontended dispatches starting
from the given cursor value. -/
def dispatchSelections (P cursor : Nat) : Nat → List Nat
  | 0 => []
  | n + 1 => (dispatch P cursor).1 :: dispatchSelections P (dispatch P cursor).2 n

/-- Status sequence PENDING, PENDING, DONE-with-images, used by the spec's
three-attempt polling example. -/
def exEventsPPD : Nat → PollEvent
  | 0 => .status .initial
  | 1 => .status .processing
  | _ => .status (.done ⟨false, some (.jsonList ["img"])⟩)

/-- Event sequence with two known-transient failures followed by an
unexpected exception class. -/
def exEventsTTX : Nat → PollEvent
  | 0 => .timeoutErr
  | 1 => .requestErr
  | _ => .otherExc

/-- Three configured credentials with distinct ids. -/
def exCreds : List Credential := [⟨"a", "x", 1⟩, ⟨"b", "y", 2⟩, ⟨"c", "z", 3⟩]

/-- A resolution oracle under which exactly the credential with id 2 fails
pipeline resolution. -/
def exResolve : Credential → ResolveResult := fun c =>
  if c.id == 2 then .failed else .ok

/-- An environment with no numbered Fusion Brain pairs and no legacy
`API_KEY`/`SECRET_KEY` pair, but with the standard unnumbered pair set. -/
def exEnv : String → Option String := fun name =>
  if name == "FUSION_BRAIN_API_KEY" then some "fa"
  else if name == "FUSION_BRAIN_SECRET_KEY" then some "fs"
  else none

/-- An environment with numbered pair 1 and numbered pair 3 but a gap at
index 2. -/
def exEnvGap : String → Option String := fun name =>
  if name == "FUSION_BRAIN_API_KEY_1" then some "a1"
  else if name == "FUSION_BRAIN_SECRET_KEY_1" then some "s1"
  else if name == "FUSION_BRAIN_API_KEY_3" then some "a3"
  else if name == "FUSION_BRAIN_SECRET_KEY_3" then some "s3"
  else none

/-- The DONE branch never yields the timeout tag. -/
theorem handleDone_ne_timeout (r : DoneResult) : handleDone r ≠ PollOutcome.timeout := by
  unfold handleDone
  split
  · simp
  · split <;> simp

/-- No single attempt is terminal with the timeout tag: `"timeout"` only
arises from exhausting the budget. -/
theorem stepResult_ne_timeout (e : PollEvent) : stepResult e ≠ some PollOutcome.timeout := by
  cases e with
  | status s =>
    cases s with
    | done r => simpa [stepResult] using handleDone_ne_timeout r
    | fail => simp [stepResult]
    | initial => simp [stepResult]
    | processing => simp [stepResult]
    | unknown => simp [stepResult]
  | timeoutErr => simp [stepResult]
  | requestErr => simp [stepResult]
  | otherExc => simp [stepResult]

/-- A known-transient event is non-terminal. -/
theorem stepResult_of_transient {e : PollEvent} (h : transientEvent e = true) :
    stepResult e = none := by
  cases e with
  | status s =>
    cases s with
    | done r => simp [transientEvent] at h
    | fail => simp [transientEvent] at h
    | initial => rfl
    | processing => rfl
    | unknown => rfl
  | timeoutErr => rfl
  | requestErr => rfl
  | otherExc => simp [transientEvent] at h

/-- A pending-status event is non-terminal. -/
theorem stepResult_of_pending {e : PollEvent} (h : pendingStatus e = true) :
    stepResult e = none := by
  cases e with
  | status s =>
    cases s with
    | done r => simp [pendingStatus] at h
    | fail => simp [pendingStatus] at h
    | initial => rfl
    | processing => rfl
    | unknown => rfl
  | timeoutErr => simp [pendingStatus] at h
  | requestErr => simp [pendingStatus] at h
  | otherExc => simp [pendingStatus] at h

/-- Among the four documented status values, only the pending ones are
non-terminal. -/
theorem pending_of_status_none {e : PollEvent} (hs : isStatusEvent e = true)
    (hn : stepResult e = none) : pendingStatus e = true := by
  cases e with
  | status s =>
    cases s with
    | done r => simp [stepResult] at hn
    | fail => simp [stepResult] at hn
    | initial => rfl
    | processing => rfl
    | unknown => simp [isStatusEvent] at hs
  | timeoutErr => simp [isStatusEvent] at hs
  | requestErr => simp [isStatusEvent] at hs
  | otherExc => simp [isStatusEvent] at hs

/-- Running the loop when attempt `current + k` is the first terminal one:
the loop stops there, having made `k + 1` further attempts and slept after
each of the `k` non-terminal ones. -/
theorem pollGo_terminal (events : Nat → PollEvent) (out : PollOutcome) :
    ∀ fuel k current sleeps, k < fuel →
      (∀ j < k, stepResult (events (current + j)) = none) →
      stepResult (events (current + k)) = some out →
      pollGo events fuel current sleeps = ⟨out, current + k + 1, sleeps + k⟩ := by
  intro fuel
  induction fuel with
  | zero =>
    intro k current sleeps hk
    exact absurd hk (Nat.not_lt_zero k)
  | succ rem ih =>
    intro k current sleeps hk hnone hsome
    cases k with
    | zero =>
      have h0 : stepResult (events current) = some out := by simpa using hsome
      simp [pollGo, h0]
    | succ k =>
      have h0 : stepResult (events current) = none := by
        simpa using hnone 0 (Nat.succ_pos k)
      have hrem : ¬rem = 0 := by omega
      have hrec := ih k (current + 1) (sleeps + 1) (by omega)
        (fun j hj => by
          have h := hnone (j + 1) (by omega)
          have e : current + (j + 1) = current + 1 + j := by omega
          rwa [e] at h)
        (by
          have e : current + (k + 1) = current + 1 + k := by omega
          rwa [e] at hsome)
      simp only [pollGo, h0]
      rw [if_neg hrem, hrec]
      simp only [PollRun.mk.injEq, true_and]
      omega

/-- Running the loop when every budgeted attempt is non-terminal: the full
budget is consumed, the loop sleeps after every attempt but the last, and the
outcome is the timeout tag. -/
theorem pollGo_exhausted (events : Nat → PollEvent) :
    ∀ fuel current sleeps, 1 ≤ fuel →
      (∀ j < fuel, stepResult (events (current + j)) = none) →
      pollGo events fuel current sleeps
        = ⟨.timeout, current + fuel, sleeps + (fuel - 1)⟩ := by
  intro fuel
  induction fuel with
  | zero =>
    intro current sleeps h
    exact absurd h (by omega)
  | succ rem ih =>
    intro current sleeps _ hnone
    have h0 : stepResult (events current) = none := by
      simpa using hnone 0 (Nat.succ_pos rem)
    simp only [pollGo, h0]
    rcases Nat.eq_zero_or_pos rem with hr | hr
    · subst hr
      simp [pollGo]
    · rw [if_neg (by omega)]
      rw [ih (current + 1) (sleeps + 1) hr
        (fun j hj => by
          have h := hnone (j + 1) (by omega)
          have e : current + (j + 1) = current + 1 + j := by omega
          rwa [e] at h)]
      simp only [PollRun.mk.injEq, true_and]
      omega

/-- If the loop returns the timeout tag, every budgeted attempt was
non-terminal. -/
theorem pollGo_timeout_all_none (events : Nat → PollEvent) :
    ∀ fuel current sleeps,
      (pollGo events fuel current sleeps).outcome = .timeout →
      ∀ j < fuel, stepResult (events (current + j)) = none := by
  intro fuel
  induction fuel with
  | zero =>
    intro current sleeps _ j hj
    exact absurd hj (Nat.not_lt_zero j)
  | succ rem ih =>
    intro current sleeps h j hj
    cases hstep : stepResult (events current) with
    | some out =>
      simp only [pollGo, hstep] at h
      subst h
      exact absurd hstep (stepResult_ne_timeout _)
    | none =>
      cases j with
      | zero => simpa using hstep
      | succ j =>
        simp only [pollGo, hstep] at h
        have hrec := ih (current + 1) (if rem = 0 then sleeps else sleeps + 1) h j (by omega)
        have e : current + (j + 1) = current + 1 + j := by omega
        rwa [e]

/-- `check_generation` run whose first terminal attempt is number `k + 1`. -/
theorem check_generation_stops (events : Nat → PollEvent) (attempts k : Nat)
    (out : PollOutcome) (hk : k < attempts)
    (hnone : ∀ j < k, stepResult (events j) = none)
    (hsome : stepResult (events k) = some out) :
    check_generation events attempts = ⟨out, k + 1, k⟩ := by
  have h := pollGo_terminal events out attempts k 0 0 hk
    (fun j hj => by simpa using hnone j hj) (by simpa using hsome)
  simpa [check_generation] using h

/-- `check_generation` run with no terminal attempt within the budget. -/
theorem check_generation_times_out (events : Nat → PollEvent) (attempts : Nat)
    (h1 : 1 ≤ attempts) (hnone : ∀ j < attempts, stepResult (events j) = none) :
    check_generation events attempts = ⟨.timeout, attempts, attempts - 1⟩ := by
  have h := pollGo_exhausted events attempts 0 0 h1
    (fun j hj => by simpa using hnone j hj)
  simpa [check_generation] using h

/-- Every `check_generation` run stays within its budget and sleeps exactly
once after each attempt except the last. -/
theorem check_generation_budget (events : Nat → PollEvent) (attempts : Nat)
    (h1 : 1 ≤ attempts) :
    (check_generation events attempts).attemptsUsed ≤ attempts ∧
    (check_generation events attempts).sleeps
      = (check_generation events attempts).attemptsUsed - 1 := by
  by_cases hex : ∃ k, stepResult (events k) ≠ none ∧ k < attempts
  · classical
    obtain ⟨k0, hk0⟩ := hex
    have hPex : ∃ k, stepResult (events k) ≠ none := ⟨k0, hk0.1⟩
    set k := Nat.find hPex with hkdef
    have hklt : k < attempts := by
      have : k ≤ k0 := Nat.find_min' hPex hk0.1
      omega
    have hknone : ∀ j < k, stepResult (events j) = none := by
      intro j hj
      have := Nat.find_min hPex hj
      exact not_not.mp this
    obtain ⟨out, hout⟩ := Option.ne_none_iff_exists'.mp (Nat.find_spec hPex)
    rw [check_generation_stops events attempts k out hklt hknone hout]
    constructor
    · simpa using hklt
    · simp
  · push_neg at hex
    have hnone : ∀ j < attempts, stepResult (events j) = none := by
      intro j hj
      by_contra hne
      exact absurd hj (by simpa using hex j hne)
    rw [check_generation_times_out events attempts h1 hnone]
    exact ⟨le_refl _, rfl⟩

/-- C2: a `check_generation` run with budget `max_attempts ≥ 1` makes at most
`max_attempts` status-query attempts and sleeps the inter-attempt delay
exactly once after every attempt except the final one; when every budgeted
attempt observes a pending status the outcome is the timeout tag with the
full budget consumed, and (over runs whose attempts all parse one of the four
documented status values) the outcome is the timeout tag exactly when every
attempt observed a pending status. In particular the sequence
[PENDING, PENDING, DONE-with-images] with budget 3 returns the image list on
the 3rd attempt after exactly 2 sleeps, and [PENDING, PENDING, ...] with
budget 2 returns the timeout tag with exactly 2 attempts consumed. -/
theorem check_generation_attempt_budget (events : Nat → PollEvent)
    (attempts : Nat) (h1 : 1 ≤ attempts) :
    (check_generation events attempts).attemptsUsed ≤ attempts ∧
    (check_generation events attempts).sleeps
      = (check_generation events attempts).attemptsUsed - 1 ∧
    ((∀ i < attempts, pendingStatus (events i) = true) →
      check_generation events attempts = ⟨.timeout, attempts, attempts - 1⟩) ∧
    ((∀ i < attempts, isStatusEvent (events i) = true) →
      ((check_generation events attempts).outcome = .timeout ↔
        ∀ i < attempts, pendingStatus (events i) = true)) ∧
    check_generation exEventsPPD 3 = ⟨.images ["img"], 3, 2⟩ ∧
    check_generation (fun _ => .status .processing) 2 = ⟨.timeout, 2, 1⟩ := by
  refine ⟨(check_generation_budget events attempts h1).1,
    (check_generation_budget events attempts h1).2, ?_, ?_, by decide, by decide⟩
  · intro hpend
    exact check_generation_times_out events attempts h1
      (fun j hj => stepResult_of_pending (hpend j hj))
  · intro hstat
    constructor
    · intro htime i hi
      have hnone := pollGo_timeout_all_none events attempts 0 0 htime i hi
      exact pending_of_status_none (hstat i hi) (by simpa using hnone)
    · intro hpend
      rw [check_generation_times_out events attempts h1
        (fun j hj => stepResult_of_pending (hpend j hj))]

/-- C2 witness: the two concrete runs of the claim, via the theorem at
`max_attempts = 3`. -/
theorem check_generation_attempt_budget_witness :
    (check_generation exEventsPPD 3).attemptsUsed ≤ 3 ∧
    check_generation exEventsPPD 3 = ⟨.images ["img"], 3, 2⟩ ∧
    check_generation (fun _ => .status .processing) 2 = ⟨.timeout, 2, 1⟩ := by
  have h := check_generation_attempt_budget exEventsPPD 3 (by decide)
  exact ⟨h.1, h.2.2.2.2.1, h.2.2.2.2.2⟩

/-- C1 (amended): on a poll run whose attempt observes status DONE the
outcome is the DONE classification: censored payloads yield the censored tag
and never an image list; a present, nonempty `files` list yields exactly that
image list; a missing, non-list or empty `files` value yields the error tag;
and an attempt observing status FAIL yields the error tag. -/
theorem check_generation_done_fail_classification (events : Nat → PollEvent)
    (attempts : Nat) (r : DoneResult) (h1 : 1 ≤ attempts) :
    (events 0 = .status (.done r) →
      (check_generation events attempts).outcome = handleDone r) ∧
    (r.censored = true →
      handleDone r = .censored ∧ ∀ fs, handleDone r ≠ .images fs) ∧
    (∀ f fs, r.censored = false → r.files = some (.jsonList (f :: fs)) →
      handleDone r = .images (f :: fs)) ∧
    (r.censored = false →
      (r.files = none ∨ r.files = some .notAList ∨ r.files = some (.jsonList [])) →
      handleDone r = .error) ∧
    (events 0 = .status .fail →
      (check_generation events attempts).outcome = .error) := by
  refine ⟨?_, ?_, ?_, ?_, ?_⟩
  · intro h0
    rw [check_generation_stops events attempts 0 (handleDone r) h1
      (fun j hj => absurd hj (Nat.not_lt_zero j)) (by rw [h0]; rfl)]
  · intro hc
    constructor
    · simp [handleDone, hc]
    · intro fs
      simp [handleDone, hc]
  · intro f fs hc hf
    simp [handleDone, hc, hf]
  · intro hc hf
    rcases hf with hf | hf | hf <;> simp [handleDone, hc, hf]
  · intro h0
    rw [check_generation_stops events attempts 0 .error h1
      (fun j hj => absurd hj (Nat.not_lt_zero j)) (by rw [h0]; rfl)]

/-- C1 witness: a censored DONE response on the first attempt of a
single-attempt run ends with the censored tag, via the theorem. -/
theorem check_generation_done_fail_classification_witness :
    (check_generation (fun _ => .status (.done ⟨true, none⟩)) 1).outcome
      = PollOutcome.censored := by
  have h := check_generation_done_fail_classification
    (fun _ => .status (.done ⟨true, none⟩)) 1 ⟨true, none⟩ (by decide)
  rw [h.1 rfl]
  exact (h.2.1 rfl).1

/-- C1 counterexample: a DONE response that is not censored and whose `files`
field is a well-formed but empty list is classified as the error tag, not as
`Images([])` as the claim read literally would demand (`if files and
isinstance(files, list)` rejects the Python-falsy empty list). -/
theorem check_generation_done_empty_files_cex :
    check_generation (fun _ => .status (.done ⟨false, some (.jsonList [])⟩)) 1
      = ⟨.error, 1, 0⟩ ∧
    PollOutcome.error ≠ PollOutcome.images [] := by
  decide

/-- C8: known-transient failures (HTTP timeout, network/request error) and
unrecognized status values are each non-terminal, consuming exactly one
budgeted attempt, so a run consisting only of such events ends with the
timeout tag after the full budget; whereas an unexpected exception class
terminates the run immediately with the error tag on the attempt where it
occurs. -/
theorem check_generation_transient_vs_unexpected (events : Nat → PollEvent)
    (attempts : Nat) :
    (1 ≤ attempts → (∀ i < attempts, transientEvent (events i) = true) →
      check_generation events attempts = ⟨.timeout, attempts, attempts - 1⟩) ∧
    (∀ k < attempts, (∀ i < k, transientEvent (events i) = true) →
      events k = .otherExc →
      check_generation events attempts = ⟨.error, k + 1, k⟩) := by
  constructor
  · intro h1 htrans
    exact check_generation_times_out events attempts h1
      (fun j hj => stepResult_of_transient (htrans j hj))
  · intro k hk htrans hx
    exact check_generation_stops events attempts k .error hk
      (fun j hj => stepResult_of_transient (htrans j hj)) (by rw [hx]; rfl)

/-- C8 witness: two transient failures followed by an unexpected exception,
with budget 5: the run ends with the error tag on attempt 3, via the
theorem. -/
theorem check_generation_transient_vs_unexpected_witness :
    check_generation exEventsTTX 5 = ⟨.error, 3, 2⟩ := by
  have h := (check_generation_transient_vs_unexpected exEventsTTX 5).2 2
    (by decide) (by decide) rfl
  exact h

/-- The selections of `n` consecutive dispatches from cursor `c` are
`(c + k) % P` for `k = 0, ..., n - 1`. -/
theorem dispatchSelections_eq_map (P : Nat) :
    ∀ n cursor,
      dispatchSelections P cursor n = (List.range n).map fun k => (cursor + k) % P := by
  intro n
  induction n with
  | zero => intro cursor; rfl
  | succ n ih =>
    intro cursor
    rw [List.range_succ_eq_map, List.map_cons, List.map_map]
    show (cursor % P) :: dispatchSelections P ((cursor + 1) % P) n = _
    rw [ih ((cursor + 1) % P)]
    have hf : (fun k => ((cursor + 1) % P + k) % P)
        = ((fun k => (cursor + k) % P) ∘ Nat.succ) := by
      funext k
      show ((cursor + 1) % P + k) % P = (cursor + Nat.succ k) % P
      rw [Nat.mod_add_mod]
      congr 1
      omega
    rw [hf]
    simp

/-- Within one full round no client index repeats. -/
theorem dispatchSelections_nodup (P cursor : Nat) :
    (dispatchSelections P cursor P).Nodup := by
  rw [dispatchSelections_eq_map]
  refine List.Nodup.map_on ?_ (List.nodup_range P)
  intro x hx y hy hxy
  rw [List.mem_range] at hx hy
  have h1 : x % P = y % P := Nat.ModEq.add_left_cancel' cursor hxy
  rwa [Nat.mod_eq_of_lt hx, Nat.mod_eq_of_lt hy] at h1

/-- Within one full round every client index is selected exactly once. -/
theorem dispatchSelections_count (P cursor : Nat) (hP : 1 ≤ P) :
    ∀ j < P, (dispatchSelections P cursor P).count j = 1 := by
  intro j hj
  have hnd := dispatchSelections_nodup P cursor
  have hlen : (dispatchSelections P cursor P).length = P := by
    rw [dispatchSelections_eq_map]
    simp
  have hsub : (dispatchSelections P cursor P).toFinset ⊆ Finset.range P := by
    intro x hx
    rw [List.mem_toFinset, dispatchSelections_eq_map, List.mem_map] at hx
    obtain ⟨k, _, hkx⟩ := hx
    rw [Finset.mem_range, ← hkx]
    exact Nat.mod_lt _ (by omega)
  have hcard : (dispatchSelections P cursor P).toFinset = Finset.range P := by
    apply Finset.eq_of_subset_of_card_le hsub
    rw [List.toFinset_card_of_nodup hnd, hlen, Finset.card_range]
  have hmem : j ∈ dispatchSelections P cursor P := by
    rw [← List.mem_toFinset, hcard, Finset.mem_range]
    exact hj
  exact List.count_eq_one_of_mem hnd hmem

/-- C3: for every pool of size `P ≥ 1` and every starting cursor value, each
dispatch selects index `cursor % P` and stores back a cursor congruent to
`cursor + 1` modulo `P` — indistinguishable, for all later selections, from
advancing the cursor by exactly one — and `P` consecutive uncontended
dispatches select each pool index exactly once. -/
theorem dispatch_round_robin (P cursor : Nat) (hP : 1 ≤ P) :
    (dispatch P cursor).1 = cursor % P ∧
    (dispatch P cursor).2 % P = (cursor + 1) % P ∧
    (∀ n, dispatchSelections P (dispatch P cursor).2 n
      = dispatchSelections P (cursor + 1) n) ∧
    (dispatchSelections P cursor P).length = P ∧
    (∀ j < P, (dispatchSelections P cursor P).count j = 1) := by
  refine ⟨rfl, Nat.mod_mod_of_dvd _ dvd_rfl, ?_, ?_,
    dispatchSelections_count P cursor hP⟩
  · intro n
    rw [dispatchSelections_eq_map, dispatchSelections_eq_map]
    refine List.map_congr_left ?_
    intro a _
    show ((cursor + 1) % P + a) % P = (cursor + 1 + a) % P
    rw [Nat.mod_add_mod]
  · rw [dispatchSelections_eq_map]
    simp

/-- C3 witness: pool of size 3 starting from cursor 5, via the theorem. -/
theorem dispatch_round_robin_witness :
    (dispatch 3 5).1 = 5 % 3 ∧ (dispatchSelections 3 5 3).count 0 = 1 := by
  have h := dispatch_round_robin 3 5 (by decide)
  exact ⟨h.1, h.2.2.2.2 0 (by decide)⟩

/-- C4: for valid configured credentials, a client belongs to the
initialized pool exactly when its pipeline resolution returned success (so a
per-credential failure never removes the others), and startup refuses to
proceed exactly when the pool is empty; with the three example credentials of
which one fails resolution, the pool has size 2 and startup proceeds, while
all resolutions failing stops startup. -/
theorem initialize_fusion_clients_pool (resolve : Credential → ResolveResult)
    (key_pairs : List Credential) (hv : ∀ c ∈ key_pairs, c.valid = true) :
    (∀ c, c ∈ initialize_fusion_clients resolve key_pairs ↔
      c ∈ key_pairs ∧ resolve c = .ok) ∧
    (startupProceeds (initialize_fusion_clients resolve key_pairs) = false ↔
      initialize_fusion_clients resolve key_pairs = []) ∧
    (initialize_fusion_clients exResolve exCreds).length = 2 ∧
    startupProceeds (initialize_fusion_clients exResolve exCreds) = true ∧
    startupProceeds (initialize_fusion_clients (fun _ => .failed) exCreds)
      = false := by
  refine ⟨?_, ?_, by decide, by decide, by decide⟩
  · intro c
    simp only [initialize_fusion_clients, List.mem_filter]
    constructor
    · rintro ⟨⟨hc, _⟩, hok⟩
      exact ⟨hc, by simpa using hok⟩
    · rintro ⟨hc, hok⟩
      exact ⟨⟨hc, hv c hc⟩, by simpa using hok⟩
  · simp [startupProceeds, List.isEmpty_iff]

/-- C4 witness: the credential with id 2 is excluded from the example pool
exactly because its resolution failed, via the theorem. -/
theorem initialize_fusion_clients_pool_witness :
    ((⟨"b", "y", 2⟩ : Credential) ∈ initialize_fusion_clients exResolve exCreds ↔
      (⟨"b", "y", 2⟩ : Credential) ∈ exCreds ∧ exResolve ⟨"b", "y", 2⟩ = .ok) ∧
    (⟨"b", "y", 2⟩ : Credential) ∉ initialize_fusion_clients exResolve exCreds := by
  have h := initialize_fusion_clients_pool exResolve exCreds (by decide)
  exact ⟨h.1 _, by decide⟩

/-- C6: a prompt longer than 1000 characters is sent as exactly its first
1000 characters (a length-1000 segment that the rest of the prompt extends),
and the truncation warning is logged. -/
theorem run_generation_prompt_truncates (prompt : List Char)
    (h : prompt.length > 1000) :
    (run_generation_prompt prompt).length = 1000 ∧
    run_generation_prompt prompt ++ prompt.drop 1000 = prompt ∧
    truncationWarned prompt = true := by
  refine ⟨?_, List.take_append_drop 1000 prompt, by simp [truncationWarned, h]⟩
  rw [run_generation_prompt, List.length_take]
  omega

/-- C6 witness: a 1200-character prompt is sent as 1000 characters, via the
theorem. -/
theorem run_generation_prompt_truncates_witness :
    (List.replicate 1200 'a').length > 1000 ∧
    (run_generation_prompt (List.replicate 1200 'a')).length = 1000 := by
  have hl : (List.replicate 1200 'a').length > 1000 := by
    rw [List.length_replicate]
    omega
  exact ⟨hl, (run_generation_prompt_truncates _ hl).1⟩

/-- C7: called with an unresolved pipeline id, `generate` makes exactly one
resolution attempt; if that attempt fails it returns `None` without issuing
any generation request, and if it succeeds the request is issued with the
newly resolved id — so no generation request is ever issued while the
pipeline id is unresolved. -/
theorem generate_requires_resolved_pipeline (resolveResult : Option String)
    (submit : String → Option String) :
    (generate none resolveResult submit).resolutionAttempts = 1 ∧
    (resolveResult = none →
      generate none resolveResult submit = ⟨1, false, none⟩) ∧
    (∀ newPid, resolveResult = some newPid →
      (generate none resolveResult submit).requestIssued = true ∧
      (generate none resolveResult submit).uuid = submit newPid) ∧
    (generate none none submit).requestIssued = false := by
  refine ⟨?_, ?_, ?_, rfl⟩
  · cases resolveResult <;> rfl
  · intro h
    subst h
    rfl
  · intro newPid h
    subst h
    exact ⟨rfl, rfl⟩

/-- C7 witness: failed lazy resolution yields no request and `None`, via the
theorem. -/
theorem generate_requires_resolved_pipeline_witness :
    generate none none (fun p => some (p ++ "-uuid")) = ⟨1, false, none⟩ :=
  (generate_requires_resolved_pipeline none (fun p => some (p ++ "-uuid"))).2.1 rfl

/-- C9: when polling returns an image list whose first payload fails base64
decoding (`binascii.Error`) or decodes to empty bytes (`ValueError`), the
classification step reports the decode-error category to the user and never
an image; the classifier is a total function, so the failure cannot escape
the orchestrator. -/
theorem classify_result_decode_failure (decode : String → Option (List Nat))
    (b : String) (rest : List String)
    (h : decode b = none ∨ decode b = some []) :
    classify_result decode (.images (b :: rest)) = .decodeError ∧
    isImageReply (classify_result decode (.images (b :: rest))) = false := by
  rcases h with h | h <;> simp [classify_result, h, isImageReply]

/-- C9 witness: a payload whose decode raises is reported as a decode error,
via the theorem. -/
theorem classify_result_decode_failure_witness :
    classify_result (fun _ => none) (.images ["zzz"]) = .decodeError :=
  (classify_result_decode_failure (fun _ => none) "zzz" [] (Or.inl rfl)).1

/-- C5 (amended): `initialize_pipeline_id` succeeds with `pid` exactly when
the listing splits into a prefix of entries that are not both ACTIVE and
TEXT2IMAGE followed by an ACTIVE TEXT2IMAGE entry whose id field is `pid` —
the first active text-to-image entry is selected and its identifier stored,
with no version filtering of any kind. -/
theorem initialize_pipeline_id_first_active (data : List PipelineEntry)
    (pid : String) :
    initialize_pipeline_id data = some pid ↔
      ∃ l1 p l2, data = l1 ++ p :: l2 ∧ (∀ q ∈ l1, isActiveT2I q = false) ∧
        isActiveT2I p = true ∧ p.id = some pid := by
  induction data with
  | nil =>
    constructor
    · intro h
      simp [initialize_pipeline_id] at h
    · rintro ⟨l1, p, l2, hdec, -, -, -⟩
      exact absurd hdec (by simp)
  | cons c tl ih =>
    by_cases hc : isActiveT2I c = true
    · have hunf : initialize_pipeline_id (c :: tl) = c.id := by
        simp [initialize_pipeline_id, List.find?_cons_of_pos _ hc]
      rw [hunf]
      constructor
      · intro h
        exact ⟨[], c, tl, rfl, by simp, hc, h⟩
      · rintro ⟨l1, p, l2, hdec, hl1, hp, hpid⟩
        cases l1 with
        | nil =>
          simp only [List.nil_append, List.cons.injEq] at hdec
          rw [hdec.1]
          exact hpid
        | cons q l1 =>
          simp only [List.cons_append, List.cons.injEq] at hdec
          have hq : isActiveT2I q = false := hl1 q (by simp)
          rw [← hdec.1, hc] at hq
          exact absurd hq (by simp)
    · have hcf : ¬isActiveT2I c := by simpa using hc
      have hunf : initialize_pipeline_id (c :: tl) = initialize_pipeline_id tl := by
        simp [initialize_pipeline_id, List.find?_cons_of_neg _ hcf]
      rw [hunf, ih]
      constructor
      · rintro ⟨l1, p, l2, hdec, hl1, hp, hpid⟩
        refine ⟨c :: l1, p, l2, by rw [List.cons_append, hdec], ?_, hp, hpid⟩
        intro q hq
        rcases List.mem_cons.mp hq with h | h
        · rw [h]
          simpa using hcf
        · exact hl1 q h
      · rintro ⟨l1, p, l2, hdec, hl1, hp, hpid⟩
        cases l1 with
        | nil =>
          simp only [List.nil_append, List.cons.injEq] at hdec
          rw [← hdec.1] at hp
          exact absurd hp (by simpa using hcf)
        | cons q l1 =>
          simp only [List.cons_append, List.cons.injEq] at hdec
          exact ⟨l1, p, l2, hdec.2, fun q2 hq2 => hl1 q2 (by simp [hq2]), hp, hpid⟩

/-- C5 witness: in a listing whose first entry is not active, the second
(active text-to-image) entry's id is selected, via the theorem's reverse
direction. -/
theorem initialize_pipeline_id_first_active_witness :
    initialize_pipeline_id
        [⟨some "DISABLED", some "TEXT2IMAGE", none, some "X"⟩,
         ⟨some "ACTIVE", some "TEXT2IMAGE", none, some "Y"⟩] = some "Y" := by
  exact (initialize_pipeline_id_first_active _ "Y").mpr
    ⟨[⟨some "DISABLED", some "TEXT2IMAGE", none, some "X"⟩],
     ⟨some "ACTIVE", some "TEXT2IMAGE", none, some "Y"⟩, [], rfl,
     by decide, by decide, rfl⟩

/-- C5 counterexample: a listing with two active text-to-image entries whose
versions are 2 and 3. With expected generation version 3 the spec's selection
rule picks the version-3 entry (id B), but the code picks the first active
text-to-image entry (id A, version 2): it performs no version match at
all. -/
theorem initialize_pipeline_id_ignores_version_cex :
    initialize_pipeline_id
        [⟨some "ACTIVE", some "TEXT2IMAGE", some 2, some "A"⟩,
         ⟨some "ACTIVE", some "TEXT2IMAGE", some 3, some "B"⟩] = some "A" ∧
    specSelectPipeline 3
        [⟨some "ACTIVE", some "TEXT2IMAGE", some 2, some "A"⟩,
         ⟨some "ACTIVE", some "TEXT2IMAGE", some 3, some "B"⟩] = some "B" ∧
    (some "A" : Option String) ≠ some "B" := by
  refine ⟨by decide, by decide, by decide⟩

/-- A numbered pair found at index `i` carries id `i`. -/
theorem pairAt_id {env : String → Option String} {i : Nat} {c : Credential}
    (h : pairAt env i = some c) : c.id = i := by
  unfold pairAt at h
  split at h
  · injection h with h
    subst h
    rfl
  · exact Option.noConfusion h

/-- The numbered scan started at an index whose pair is incomplete finds
nothing. -/
theorem scanNumbered_nil (env : String → Option String) (fuel i : Nat)
    (h : pairAt env i = none) : scanNumbered env fuel i = [] := by
  cases fuel with
  | zero => rfl
  | succ fuel => simp [scanNumbered, h]

/-- Every credential found by the scan started at `i` has index at least `i`,
and every index between `i` and it carries a complete pair. -/
theorem scanNumbered_mem (env : String → Option String) :
    ∀ fuel i c, c ∈ scanNumbered env fuel i →
      i ≤ c.id ∧ ∀ j, i ≤ j → j ≤ c.id → pairAt env j ≠ none := by
  intro fuel
  induction fuel with
  | zero =>
    intro i c h
    simp [scanNumbered] at h
  | succ fuel ih =>
    intro i c h
    cases hp : pairAt env i with
    | none =>
      simp only [scanNumbered, hp] at h
      exact absurd h (List.not_mem_nil c)
    | some c0 =>
      simp only [scanNumbered, hp, List.mem_cons] at h
      rcases h with h | h
      · subst h
        have hid := pairAt_id hp
        constructor
        · omega
        · intro j hij hji
          have hj : j = i := by omega
          rw [hj, hp]
          simp
      · have hrec := ih (i + 1) c h
        constructor
        · omega
        · intro j hij hji
          rcases Nat.eq_or_lt_of_le hij with he | hlt
          · rw [← he, hp]
            simp
          · exact hrec.2 j (by omega) hji

/-- When the numbered scan finds nothing, key loading reduces to the two
legacy fallbacks. -/
theorem fusionBrainKeyPairs_of_no_numbered (env : String → Option String)
    (fuel : Nat) (h1 : pairAt env 1 = none) :
    fusionBrainKeyPairs env fuel =
      match getTruthy env "API_KEY", getTruthy env "SECRET_KEY" with
      | some a, some s => [⟨a, s, 0⟩]
      | _, _ =>
        match getTruthy env "FUSION_BRAIN_API_KEY",
              getTruthy env "FUSION_BRAIN_SECRET_KEY" with
        | some a, some s => [⟨a, s, 0⟩]
        | _, _ => [] := by
  simp [fusionBrainKeyPairs, scanNumbered_nil env fuel 1 h1]

/-- C10: when no numbered pair exists at index 1 the numbered scan finds
nothing and credential loading falls back first to `API_KEY`/`SECRET_KEY`,
then to `FUSION_BRAIN_API_KEY`/`FUSION_BRAIN_SECRET_KEY`, producing in either
case a single credential with id 0; and the numbered scan stops at the first
index whose pair is incomplete, so no pair beyond a gap is ever loaded. -/
theorem fusionBrainKeyPairs_fallback_and_gap (env : String → Option String)
    (fuel : Nat) :
    (pairAt env 1 = none →
      scanNumbered env fuel 1 = [] ∧
      (∀ a s, getTruthy env "API_KEY" = some a →
        getTruthy env "SECRET_KEY" = some s →
        fusionBrainKeyPairs env fuel = [⟨a, s, 0⟩]) ∧
      ((getTruthy env "API_KEY" = none ∨ getTruthy env "SECRET_KEY" = none) →
        ∀ a s, getTruthy env "FUSION_BRAIN_API_KEY" = some a →
          getTruthy env "FUSION_BRAIN_SECRET_KEY" = some s →
          fusionBrainKeyPairs env fuel = [⟨a, s, 0⟩])) ∧
    (∀ k, 1 ≤ k → pairAt env k = none →
      ∀ c ∈ scanNumbered env fuel 1, c.id < k) := by
  constructor
  · intro h1
    refine ⟨scanNumbered_nil env fuel 1 h1, ?_, ?_⟩
    · intro a s ha hs
      rw [fusionBrainKeyPairs_of_no_numbered env fuel h1, ha, hs]
    · intro hnone a s ha hs
      rcases hnone with hn | hn
      · cases hS : getTruthy env "SECRET_KEY" with
        | none =>
          rw [fusionBrainKeyPairs_of_no_numbered env fuel h1, hn, hS, ha, hs]
        | some s0 =>
          rw [fusionBrainKeyPairs_of_no_numbered env fuel h1, hn, hS, ha, hs]
      · cases hA : getTruthy env "API_KEY" with
        | none =>
          rw [fusionBrainKeyPairs_of_no_numbered env fuel h1, hA, hn, ha, hs]
        | some a0 =>
          rw [fusionBrainKeyPairs_of_no_numbered env fuel h1, hA, hn, ha, hs]
  · intro k hk hkn c hc
    have hmem := scanNumbered_mem env fuel 1 c hc
    by_contra hge
    exact hmem.2 k hk (by omega) hkn

/-- C10 witness: with only the standard unnumbered pair set, loading yields
the single credential with id 0 (via the theorem); with a gap at index 2,
every loaded pair has index below 2, and pair 3 is indeed never loaded. -/
theorem fusionBrainKeyPairs_fallback_and_gap_witness :
    fusionBrainKeyPairs exEnv 5 = [⟨"fa", "fs", 0⟩] ∧
    (∀ c ∈ scanNumbered exEnvGap 9 1, c.id < 2) ∧
    scanNumbered exEnvGap 9 1 = [⟨"a1", "s1", 1⟩] := by
  refine ⟨?_, (fusionBrainKeyPairs_fallback_and_gap exEnvGap 9).2 2 (by decide)
    (by decide), by decide⟩
  exact ((fusionBrainKeyPairs_fallback_and_gap exEnv 5).1 (by decide)).2.2
    (Or.inl (by decide)) "fa" "fs" (by decide) (by decide)

end FusionBot
